import Mathlib

/-!
# Rate-paced TCP generator and throughput sampler (ns-3 test case)

Shallow embedding of `src/tcp-generator.{h,cc}` (class `TcpGeneratorApp`) and of the
telemetry callbacks of `src/nkb-test-case.cc` (`CwndChange`, `CalculateTxBytes`,
`CalculateWifiThroughput`).

Modelling conventions.

* `uint32_t` and `uint64_t` values are natural numbers; every arithmetic operation the
  source performs on them is reduced modulo `2^32` resp. `2^64` explicitly.
* A C++ `double` and an ns-3 `Time` are exact rationals (seconds).  Rounding of doubles and
  the nanosecond resolution of `Time` are not represented.  A division by a zero rate does
  not produce a finite double; it is modelled as a failure (`none`).
* The ns-3 simulator is an external collaborator.  It is modelled as an event queue that
  is processed in `(timestamp, uid)` order; `Simulator::Cancel` flags an event, a flagged
  event is dropped without being invoked when its turn comes.
* The ns-3 socket is an external collaborator.  It is modelled by the trace of the calls
  it received.  Calling a method through a null `Ptr<Socket>` is a failure (`none`).
-/

namespace NkbTestCase

/-! ## External collaborators -/

/-- Simulated time, in seconds. -/
abbrev Time := ℚ

/-- A peer address (`ns3::Address`), kept abstract. -/
abbrev Address := Nat

/-- The calls that `TcpGeneratorApp` makes on its `ns3::Socket`. -/
inductive SocketOp where
  | Bind
  | Connect (peer : Address)
  | Send (size : Nat)
  | Close
  deriving DecidableEq, Repr

/-- An `ns3::Socket` object, observed through the calls made on it (oldest first). -/
structure Socket where
  ops : List SocketOp
  deriving DecidableEq, Repr

/-- Append one call to the trace of a socket. -/
def Socket.call (s : Socket) (op : SocketOp) : Socket :=
  { ops := s.ops ++ [op] }

/-- An `ns3::EventId`: `none` is the default-constructed (null) id, `some uid` identifies
the event that `Simulator::Schedule` created with that uid. -/
abbrev EventId := Option Nat

/-- An entry of the simulator event queue; `cb` is the bound callback. -/
structure Event (α : Type) where
  ts : Time
  uid : Nat
  cancelled : Bool
  cb : α
  deriving DecidableEq, Repr

/-- State of `ns3::Simulator`: current time, next uid, and the event queue. -/
structure Simulator (α : Type) where
  now : Time
  uid : Nat
  events : List (Event α)
  deriving DecidableEq, Repr

/-- Model of `Simulator::Schedule (delay, cb)`: enqueue `cb` at `now + delay`, return its id. -/
def Simulator.Schedule {α : Type} (sim : Simulator α) (delay : Time) (cb : α) :
    Simulator α × EventId :=
  ({ now := sim.now
     uid := sim.uid + 1
     events := sim.events ++ [{ ts := sim.now + delay, uid := sim.uid, cancelled := false, cb := cb }] },
   some sim.uid)

/-- Model of `EventId::IsRunning`: the event is still queued and has not been cancelled. -/
def Simulator.IsRunning {α : Type} (sim : Simulator α) (id : EventId) : Bool :=
  match id with
  | none => false
  | some u => sim.events.any (fun e => e.uid == u && !e.cancelled)

/-- Model of `Simulator::Cancel (id)`: flag the event; it stays queued but will not be invoked. -/
def Simulator.Cancel {α : Type} (sim : Simulator α) (id : EventId) : Simulator α :=
  match id with
  | none => sim
  | some u =>
    { sim with events := sim.events.map (fun e => if e.uid = u then { e with cancelled := true } else e) }

/-- Queue order of the simulator: earlier timestamp first, ties by insertion (uid). -/
def Event.before {α : Type} (a b : Event α) : Bool :=
  decide (a.ts < b.ts) || (decide (a.ts = b.ts) && decide (a.uid < b.uid))

/-- The next event the simulator will take from its queue. -/
def earliest {α : Type} : List (Event α) → Option (Event α)
  | [] => none
  | e :: es =>
    match earliest es with
    | none => some e
    | some m => if m.before e then some m else some e

/-- Number of events that are queued and not cancelled. -/
def Simulator.pending {α : Type} (sim : Simulator α) : Nat :=
  sim.events.countP (fun e => !e.cancelled)

/-! ## `TcpGeneratorApp` (src/tcp-generator.h, src/tcp-generator.cc) -/

/-- The data members of `TcpGeneratorApp`.  `m_dataRate` is the value of
`DataRate::GetBitRate ()` (bits per second, `uint64_t`); `m_packetSize` is a `uint32_t`. -/
structure TcpGeneratorApp where
  m_socket : Option Socket
  m_peer : Address
  m_packetSize : Nat
  m_dataRate : Nat
  m_sendEvent : EventId
  m_running : Bool
  deriving DecidableEq, Repr

/-- The generator together with the simulator it schedules on.  The only callback queued
in this simulator is `TcpGeneratorApp::SendPacket` of this generator. -/
structure World where
  app : TcpGeneratorApp
  sim : Simulator Unit
  deriving DecidableEq, Repr

/-- Constructor `TcpGeneratorApp::TcpGeneratorApp` (tcp-generator.cc:6-19). -/
def TcpGeneratorApp.new (socket : Option Socket) (address : Address) (dataRate : Nat)
    (packetSize : Nat) : TcpGeneratorApp :=
  { m_socket := socket
    m_peer := address
    m_packetSize := packetSize
    m_dataRate := dataRate
    m_sendEvent := none
    m_running := false }

/-- Method `TcpGeneratorApp::Setup` (tcp-generator.cc:26-38). -/
def TcpGeneratorApp.Setup (app : TcpGeneratorApp) (socket : Option Socket) (address : Address)
    (dataRate : Nat) (packetSize : Nat) : TcpGeneratorApp :=
  { app with
    m_socket := socket
    m_peer := address
    m_packetSize := packetSize
    m_dataRate := dataRate }

/-- The argument of `Seconds (...)` in `ScheduleTx` (tcp-generator.cc:78):
`m_packetSize * 8 / static_cast<double> (m_dataRate.GetBitRate ())`.
The product is formed in `uint32_t` (it wraps modulo `2^32`) before the conversion to
`double`; a zero bit rate gives no finite value. -/
def tNext (packetSize : Nat) (bitRate : Nat) : Option Time :=
  if bitRate = 0 then none
  else some ((((packetSize * 8) % 2 ^ 32 : Nat) : ℚ) / (bitRate : ℚ))

/-- Method `TcpGeneratorApp::ScheduleTx` (tcp-generator.cc:73-81). -/
def ScheduleTx (w : World) : Option World :=
  if w.app.m_running then
    match tNext w.app.m_packetSize w.app.m_dataRate with
    | none => none
    | some d =>
      let r := w.sim.Schedule d ()
      some { app := { w.app with m_sendEvent := r.2 }, sim := r.1 }
  else some w

/-- Method `TcpGeneratorApp::SendPacket` (tcp-generator.cc:65-71). -/
def SendPacket (w : World) : Option World :=
  match w.app.m_socket with
  | none => none
  | some s =>
    ScheduleTx { w with app := { w.app with m_socket := some (s.call (.Send w.app.m_packetSize)) } }

/-- Method `TcpGeneratorApp::StartApplication` (tcp-generator.cc:40-47). -/
def StartApplication (w : World) : Option World :=
  match w.app.m_socket with
  | none => none
  | some s =>
    SendPacket
      { w with app := { w.app with
                        m_running := true
                        m_socket := some ((s.call .Bind).call (.Connect w.app.m_peer)) } }

/-- Method `TcpGeneratorApp::StopApplication` (tcp-generator.cc:49-63). -/
def StopApplication (w : World) : World :=
  let sim := if w.sim.IsRunning w.app.m_sendEvent then w.sim.Cancel w.app.m_sendEvent else w.sim
  let socket := match w.app.m_socket with
    | none => none
    | some s => some (s.call .Close)
  { app := { w.app with m_running := false, m_socket := socket }, sim := sim }

/-- One iteration of `Simulator::Run`: take the next event from the queue, advance the
clock to its timestamp and, unless it was cancelled, invoke its callback (`SendPacket`).
With an empty queue nothing happens.  `none` when the callback fails. -/
def ProcessOneEvent (w : World) : Option World :=
  match earliest w.sim.events with
  | none => some w
  | some e =>
    let w1 : World := { w with sim := { w.sim with now := e.ts, events := w.sim.events.erase e } }
    if e.cancelled then some w1 else SendPacket w1

/-- Model of `Simulator::Run` restricted to the events with timestamp at most `limit`.
`fuel` bounds the number of events processed; `none` when the fuel runs out while an
event is still due, or when a callback fails. -/
def runUntil (limit : Time) : Nat → World → Option World
  | 0, w =>
    match earliest w.sim.events with
    | none => some w
    | some e => if e.ts ≤ limit then none else some w
  | fuel + 1, w =>
    match earliest w.sim.events with
    | none => some w
    | some e => if e.ts ≤ limit then (ProcessOneEvent w).bind (runUntil limit fuel) else some w

/-- Number of `Send` calls a socket has received. -/
def Socket.sends (s : Socket) : Nat :=
  s.ops.countP (fun op => match op with | .Send _ => true | _ => false)

/-- Number of units the generator has sent on its channel (0 without a socket). -/
def World.sends (w : World) : Nat :=
  match w.app.m_socket with
  | none => 0
  | some s => s.sends

/-- A freshly constructed generator on a simulator whose clock is at `t0` and whose
queue is empty. -/
def World.fresh (socket : Option Socket) (address : Address) (dataRate packetSize : Nat)
    (t0 : Time) (uid0 : Nat) : World :=
  { app := TcpGeneratorApp.new socket address dataRate packetSize
    sim := { now := t0, uid := uid0, events := [] } }

/-! ## Telemetry callbacks (src/nkb-test-case.cc) -/

/-- The points held by an `ns3::Gnuplot2dDataset`, in insertion order. -/
abbrev Gnuplot2dDataset := List (ℚ × ℚ)

/-- Model of `Gnuplot2dDataset::Add (x, y)`: append the point. -/
def Gnuplot2dDataset.Add (d : Gnuplot2dDataset) (x y : ℚ) : Gnuplot2dDataset :=
  d ++ [(x, y)]

/-- The telemetry part of the program: the global `g_wifiTxBytes` (`uint64_t`), the two
data sets created in `main`, and the simulator.  The only callback queued in this
simulator is `CalculateWifiThroughput`; the payload of an event is the bound `lastBytes`
argument (the data set argument is always `wifiTxThroughputSet`). -/
structure Telemetry where
  sim : Simulator Nat
  g_wifiTxBytes : Nat
  cwndDataSet : Gnuplot2dDataset
  wifiTxThroughputSet : Gnuplot2dDataset
  deriving DecidableEq, Repr

/-- Function `CwndChange` (nkb-test-case.cc:43-48). -/
def CwndChange (w : Telemetry) (_oldCwnd newCwnd : Nat) : Telemetry :=
  { w with cwndDataSet := w.cwndDataSet.Add w.sim.now (newCwnd : ℚ) }

/-- Function `CalculateTxBytes` (nkb-test-case.cc:51-54); `size` is `packet->GetSize ()`. -/
def CalculateTxBytes (w : Telemetry) (size : Nat) : Telemetry :=
  { w with g_wifiTxBytes := (w.g_wifiTxBytes + size) % 2 ^ 64 }

/-- The value `cur` of `CalculateWifiThroughput` (nkb-test-case.cc:59):
`(g_wifiTxBytes - lastBytes) * (double) 8 / 1e5`, the difference taken in `uint64_t`. -/
def throughput (g_wifiTxBytes lastBytes : Nat) : ℚ :=
  ((((g_wifiTxBytes : ℤ) - (lastBytes : ℤ)) % 2 ^ 64 : ℤ) : ℚ) * 8 / 100000

/-- Function `CalculateWifiThroughput` (nkb-test-case.cc:56-64). -/
def CalculateWifiThroughput (w : Telemetry) (lastBytes : Nat) : Telemetry :=
  let now := w.sim.now
  let cur := throughput w.g_wifiTxBytes lastBytes
  let dataSet := w.wifiTxThroughputSet.Add now cur
  let lastBytes := w.g_wifiTxBytes
  { w with
    wifiTxThroughputSet := dataSet
    sim := (w.sim.Schedule (100 / 1000) lastBytes).1 }

/-- The telemetry state that `main` sets up before `Simulator::Run`
(nkb-test-case.cc:291-302): empty data sets, counter 0, and
`Simulator::Schedule (Seconds (0), &CalculateWifiThroughput, wifiTxThroughputSet, 0)`. -/
def Telemetry.main : Telemetry :=
  { sim := (Simulator.Schedule { now := 0, uid := 0, events := [] } 0 0).1
    g_wifiTxBytes := 0
    cwndDataSet := []
    wifiTxThroughputSet := [] }

/-- One iteration of `Simulator::Run` on the telemetry simulator: the next queued
`CalculateWifiThroughput` event is taken, the clock moves to its timestamp and the
callback runs with its bound `lastBytes`.  `none` when the queue is empty. -/
def Telemetry.tick (w : Telemetry) : Option Telemetry :=
  match earliest w.sim.events with
  | none => none
  | some e =>
    let w1 : Telemetry := { w with sim := { w.sim with now := e.ts, events := w.sim.events.erase e } }
    if e.cancelled then some w1 else some (CalculateWifiThroughput w1 e.cb)

/-- Successive ticks of the sampler, where `readings` lists the value that
`g_wifiTxBytes` holds when each tick fires. -/
def sampleTicks : List Nat → Telemetry → Option Telemetry
  | [], w => some w
  | c :: cs, w => (Telemetry.tick { w with g_wifiTxBytes := c }).bind (sampleTicks cs)

/-- What can happen to the telemetry state during `Simulator::Run`. -/
inductive Input where
  /-- the simulator executes the queued `CalculateWifiThroughput` event -/
  | tick
  /-- the simulator executes an event of another component, stamped `t` -/
  | other (t : Time)
  /-- the trace source `PhyTxEnd` fires for a packet of `size` bytes -/
  | tx (size : Nat)
  /-- the trace source `CongestionWindow` fires -/
  | cwnd (oldCwnd newCwnd : Nat)
  deriving DecidableEq, Repr

/-- Effect of one input.  An event of another component can only be executed at a time
`t` that is not in the past and not later than the next queued sampler event, because
the simulator executes events in timestamp order; otherwise the input is impossible
(`none`). -/
def Telemetry.step (w : Telemetry) : Input → Option Telemetry
  | .tick => w.tick
  | .other t =>
    if w.sim.now ≤ t ∧ (∀ e ∈ earliest w.sim.events, t ≤ e.ts) then
      some { w with sim := { w.sim with now := t } }
    else none
  | .tx size => some (CalculateTxBytes w size)
  | .cwnd oldCwnd newCwnd => some (CwndChange w oldCwnd newCwnd)

/-- A run of the simulator, as the sequence of inputs it delivers. -/
def Telemetry.run : List Input → Telemetry → Option Telemetry
  | [], w => some w
  | i :: is, w => (w.step i).bind (Telemetry.run is)

/-- Timestamps (x values) of a data set. -/
def timestamps (d : Gnuplot2dDataset) : List ℚ := d.map Prod.fst

/-- Sample values (y values) of a data set. -/
def values (d : Gnuplot2dDataset) : List ℚ := d.map Prod.snd

/-! ## Executions of the generator -/

/-- Invariant of the generator: the number of pending (queued, not cancelled) send events
is one while the running flag is set and zero otherwise, and a pending event is the one
that `m_sendEvent` identifies. -/
def World.Inv (w : World) : Prop :=
  w.sim.pending = (if w.app.m_running then 1 else 0) ∧
  ∀ e ∈ w.sim.events, e.cancelled = false → w.app.m_sendEvent = some e.uid

/-- States reachable from `w0` by `StartApplication` (invoked only while the running flag
is clear, which includes every Idle state), `StopApplication`, and the simulator
processing its next event. -/
inductive Reachable (w0 : World) : World → Prop where
  | init : Reachable w0 w0
  | start {w w1 : World} : Reachable w0 w → w.app.m_running = false →
      StartApplication w = some w1 → Reachable w0 w1
  | stop {w : World} : Reachable w0 w → Reachable w0 (StopApplication w)
  | fire {w w1 : World} : Reachable w0 w → ProcessOneEvent w = some w1 → Reachable w0 w1

/-- What can happen to a generator once it has been stopped and is not started again. -/
inductive AfterStop where
  /-- `StopApplication` is invoked again -/
  | stop
  /-- the simulator processes its next event -/
  | fire
  deriving DecidableEq, Repr

/-- Effect of one step after the stop. -/
def World.afterStop (w : World) : AfterStop → Option World
  | .stop => some (StopApplication w)
  | .fire => ProcessOneEvent w

/-- Effect of a sequence of steps after the stop. -/
def World.afterStops : List AfterStop → World → Option World
  | [], w => some w
  | a :: as, w => (w.afterStop a).bind (World.afterStops as)

/-! ## Concrete instances -/

/-- The generator of `main` (40 Mbps, default packet size 512, nkb-test-case.cc:279-281)
on an untouched socket and an empty simulator at the generators' start time of 2 s. -/
def World.sample : World :=
  World.fresh (some { ops := [] }) 13 40000000 512 2 0

/-- The state of `World.sample` after `StartApplication`. -/
def World.sampleStarted : World :=
  { app := { m_socket := some { ops := [.Bind, .Connect 13, .Send 512] }
             m_peer := 13
             m_packetSize := 512
             m_dataRate := 40000000
             m_sendEvent := some 0
             m_running := true }
    sim := { now := 2
             uid := 1
             events := [{ ts := 2 + 4096 / 40000000, uid := 0, cancelled := false, cb := () }] } }

/-- Counter readings growing by 125000 bytes per tick. -/
def sampleReadings : List Nat := [5, 125005, 250005]

/-! ## Invariant of the telemetry state -/

/-- Invariant of the telemetry state: exactly one sampler event is queued, it is stamped
`n * 100 ms` where `n` is the number of samples recorded so far, the recorded samples are
stamped `0, 100 ms, ..., (n - 1) * 100 ms`, and no recorded timestamp of either data set
lies after the current time. -/
def Telemetry.TInv (w : Telemetry) : Prop :=
  ∃ (t : Time) (u last : Nat),
    w.sim.events = [{ ts := t, uid := u, cancelled := false, cb := last }] ∧
    w.sim.now ≤ t ∧
    t = (w.wifiTxThroughputSet.length : ℚ) * (100 / 1000) ∧
    timestamps w.wifiTxThroughputSet =
      (List.range w.wifiTxThroughputSet.length).map (fun k : Nat => (k : ℚ) * (100 / 1000)) ∧
    (∀ x ∈ timestamps w.wifiTxThroughputSet, x ≤ w.sim.now) ∧
    (timestamps w.wifiTxThroughputSet).Pairwise (· ≤ ·) ∧
    (∀ x ∈ timestamps w.cwndDataSet, x ≤ w.sim.now) ∧
    (timestamps w.cwndDataSet).Pairwise (· ≤ ·)

/-! ## Pacing of a started generator -/

/-- State of a generator that was started at time `t0` with `b` earlier sends on its
socket, has not been stopped, and has made `k` sends since: the running flag is set and
the queue holds exactly the next send, stamped `t0 + k * D`. -/
def World.Paced (packetSize dataRate : Nat) (D t0 : Time) (b k : Nat) (w : World) : Prop :=
  w.app.m_running = true ∧
  w.app.m_packetSize = packetSize ∧
  w.app.m_dataRate = dataRate ∧
  (∃ s : Socket, w.app.m_socket = some s ∧ s.sends = b + k) ∧
  ∃ u : Nat, w.sim.events = [{ ts := t0 + (k : ℚ) * D, uid := u, cancelled := false, cb := () }]

/-- A short run of the simulator: two sampler ticks, one transmitted packet, an event of
another component at 50 ms, and two congestion-window changes. -/
def sampleInputs : List Input :=
  [.tick, .tx 100, .other (1 / 20), .cwnd 0 5, .tick, .cwnd 5 6]

/-- The telemetry state that `sampleInputs` leads to. -/
def sampleTelemetry : Telemetry :=
  { sim := { now := 1 / 10
             uid := 3
             events := [{ ts := 1 / 5, uid := 2, cancelled := false, cb := 100 }] }
    g_wifiTxBytes := 100
    cwndDataSet := [(1 / 20, 5), (1 / 10, 6)]
    wifiTxThroughputSet := [(0, 0), (1 / 10, 1 / 125)] }

/-! ## Auxiliary lemmas: simulator and generator -/

/-- The event taken next is one of the queued events. -/
theorem earliest_mem {α : Type} : ∀ (l : List (Event α)) (e : Event α), earliest l = some e → e ∈ l
  | [], e, h => by simp [earliest] at h
  | a :: l, e, h => by
    unfold earliest at h
    cases hm : earliest l with
    | none =>
      rw [hm] at h
      simp only [Option.some.injEq] at h
      simp [h]
    | some m =>
      rw [hm] at h
      have hmem := earliest_mem l m hm
      by_cases hb : m.before a = true
      · simp only [if_pos hb, Option.some.injEq] at h
        subst h
        exact List.mem_cons_of_mem _ hmem
      · simp only [if_neg hb, Option.some.injEq] at h
        subst h
        exact List.mem_cons_self _ _

/-- With a single queued event, that event is next. -/
theorem earliest_singleton {α : Type} (e : Event α) : earliest [e] = some e := rfl

/-- Removing a member lowers a count by one exactly when the member is counted. -/
theorem countP_erase_of_mem {α : Type} [DecidableEq α] (p : α → Bool) :
    ∀ (l : List α) (a : α), a ∈ l →
      (l.erase a).countP p + (if p a then 1 else 0) = l.countP p
  | [], a, h => by simp at h
  | b :: l, a, h => by
    by_cases hba : b = a
    · subst hba
      simp [List.countP_cons]
    · have hmem : a ∈ l := by
        rcases List.mem_cons.mp h with h1 | h1
        · exact absurd h1.symm hba
        · exact h1
      have ih := countP_erase_of_mem p l a hmem
      rw [List.erase_cons_tail (by simpa using hba)]
      simp only [List.countP_cons]
      omega

/-- Nothing is pending exactly when every queued event is cancelled. -/
theorem pending_eq_zero_iff {α : Type} (sim : Simulator α) :
    sim.pending = 0 ↔ ∀ e ∈ sim.events, e.cancelled = true := by
  unfold Simulator.pending
  rw [List.countP_eq_zero]
  constructor
  · intro h e he
    have := h e he
    simpa using this
  · intro h e he
    simp [h e he]

/-- After `Simulator::Cancel` the cancelled id is no longer running. -/
theorem IsRunning_Cancel {α : Type} (sim : Simulator α) (id : EventId) :
    (sim.Cancel id).IsRunning id = false := by
  cases id with
  | none => rfl
  | some u =>
    simp only [Simulator.IsRunning, Simulator.Cancel]
    rw [Bool.eq_false_iff]
    intro hany
    simp only [List.any_eq_true, List.mem_map] at hany
    obtain ⟨e, ⟨e0, _, rfl⟩, he⟩ := hany
    by_cases hu : e0.uid = u <;> simp [hu] at he

/-- With a positive bit rate the delay is defined and is the wrapped product over the rate. -/
theorem tNext_isSome (packetSize bitRate : Nat) (h : 0 < bitRate) :
    tNext packetSize bitRate = some ((((packetSize * 8) % 2 ^ 32 : Nat) : ℚ) / (bitRate : ℚ)) := by
  unfold tNext
  rw [if_neg (by omega)]

/-- When `packetSize * 8` fits in 32 bits the delay is `packetSize * 8 / bitRate` seconds. -/
theorem tNext_of_no_wrap (packetSize bitRate : Nat) (hR : 0 < bitRate)
    (hS : packetSize * 8 < 2 ^ 32) :
    tNext packetSize bitRate = some ((packetSize : ℚ) * 8 / (bitRate : ℚ)) := by
  rw [tNext_isSome _ _ hR, Nat.mod_eq_of_lt hS]
  push_cast
  rfl

/-- For the generator of `main` (512 bytes at 40 Mbps) the delay is 0.0001024 s. -/
theorem tNext_main : tNext 512 40000000 = some (1024 / 10000000) := by
  rw [tNext_isSome _ _ (by decide)]
  norm_num

/-- A `Send` call adds one to the number of sends. -/
theorem sends_call_Send (s : Socket) (n : Nat) : (s.call (.Send n)).sends = s.sends + 1 := by
  simp [Socket.call, Socket.sends]

/-- A `Bind` call does not change the number of sends. -/
theorem sends_call_Bind (s : Socket) : (s.call .Bind).sends = s.sends := by
  simp [Socket.call, Socket.sends]

/-- A `Connect` call does not change the number of sends. -/
theorem sends_call_Connect (s : Socket) (a : Address) : (s.call (.Connect a)).sends = s.sends := by
  simp [Socket.call, Socket.sends]

/-- A `Close` call does not change the number of sends. -/
theorem sends_call_Close (s : Socket) : (s.call .Close).sends = s.sends := by
  simp [Socket.call, Socket.sends]

/-- Shape of the state after a successful `SendPacket` of a running generator. -/
theorem SendPacket_of_running (w w1 : World) (h : SendPacket w = some w1)
    (hr : w.app.m_running = true) :
    ∃ s d, w.app.m_socket = some s ∧ tNext w.app.m_packetSize w.app.m_dataRate = some d ∧
      w1 = { app := { w.app with
                      m_socket := some (s.call (.Send w.app.m_packetSize))
                      m_sendEvent := some w.sim.uid }
             sim := { now := w.sim.now
                      uid := w.sim.uid + 1
                      events := w.sim.events ++
                        [{ ts := w.sim.now + d, uid := w.sim.uid, cancelled := false, cb := () }] } } := by
  unfold SendPacket at h
  cases hs : w.app.m_socket with
  | none => rw [hs] at h; simp at h
  | some s =>
    rw [hs] at h
    simp only [ScheduleTx, hr, if_true] at h
    cases hd : tNext w.app.m_packetSize w.app.m_dataRate with
    | none => rw [hd] at h; simp at h
    | some d =>
      rw [hd] at h
      simp only [Simulator.Schedule, Option.some.injEq] at h
      refine ⟨s, d, rfl, rfl, ?_⟩
      rw [← h]
      simp [hr]

/-- Invoking `SendPacket` on a running generator with nothing pending establishes the invariant.
-/
theorem SendPacket_inv (w w1 : World) (h : SendPacket w = some w1)
    (hr : w.app.m_running = true) (hp : w.sim.pending = 0) :
    w1.Inv ∧ w1.app.m_running = true := by
  obtain ⟨s, d, hs, hd, rfl⟩ := SendPacket_of_running w w1 h hr
  refine ⟨⟨?_, ?_⟩, hr⟩
  · have hp0 : List.countP (fun e : Event Unit => !e.cancelled) w.sim.events = 0 := hp
    simp [Simulator.pending, hr, hp0]
  · intro e he hc
    have hall := (pending_eq_zero_iff w.sim).mp hp
    simp only [List.mem_append, List.mem_singleton] at he
    rcases he with he | he
    · rw [hall e he] at hc
      cases hc
    · subst he
      rfl

/-- Shape of the state after `StartApplication` with a socket and a defined delay. -/
theorem StartApplication_some (w : World) (s : Socket) (d : Time)
    (hs : w.app.m_socket = some s)
    (hd : tNext w.app.m_packetSize w.app.m_dataRate = some d) :
    StartApplication w = some
      { app := { w.app with
                 m_socket := some ((((s.call .Bind).call (.Connect w.app.m_peer))).call
                              (.Send w.app.m_packetSize))
                 m_sendEvent := some w.sim.uid
                 m_running := true }
        sim := { now := w.sim.now
                 uid := w.sim.uid + 1
                 events := w.sim.events ++
                   [{ ts := w.sim.now + d, uid := w.sim.uid, cancelled := false, cb := () }] } } := by
  simp [StartApplication, SendPacket, ScheduleTx, Simulator.Schedule, hs, hd]

/-- After `StopApplication` nothing is pending, provided the invariant held before. -/
theorem StopApplication_pending (w : World) (hw : w.Inv) :
    (StopApplication w).sim.pending = 0 := by
  rw [pending_eq_zero_iff]
  intro e he
  unfold StopApplication at he
  simp only at he
  by_cases hrun : w.sim.IsRunning w.app.m_sendEvent = true
  · rw [if_pos hrun] at he
    cases hid : w.app.m_sendEvent with
    | none => rw [hid] at hrun; simp [Simulator.IsRunning] at hrun
    | some u =>
      rw [hid] at he
      simp only [Simulator.Cancel, List.mem_map] at he
      obtain ⟨e0, he0, rfl⟩ := he
      by_cases hu : e0.uid = u
      · simp [hu]
      · simp only [if_neg hu]
        by_contra hc
        have := hw.2 e0 he0 (by simpa using hc)
        rw [hid] at this
        exact hu (Option.some.inj this).symm
  · rw [if_neg hrun] at he
    by_contra hc
    have hc1 : e.cancelled = false := by simpa using hc
    have hid := hw.2 e he hc1
    apply hrun
    rw [hid]
    simp only [Simulator.IsRunning, List.any_eq_true]
    exact ⟨e, he, by simp [hc1]⟩

/-- A generator that is not running and has nothing pending satisfies the invariant. -/
theorem Inv_of_pending_zero (w : World) (hr : w.app.m_running = false) (hp : w.sim.pending = 0) :
    w.Inv := by
  refine ⟨by simp [hp, hr], ?_⟩
  intro e he hc
  have := (pending_eq_zero_iff _).mp hp e he
  rw [this] at hc
  cases hc

/-- The invariant is preserved by `StopApplication`. -/
theorem StopApplication_inv (w : World) (hw : w.Inv) : (StopApplication w).Inv :=
  Inv_of_pending_zero _ rfl (StopApplication_pending w hw)

/-- The invariant is preserved by `StartApplication` on a generator that is not running. -/
theorem StartApplication_inv (w w1 : World) (hw : w.Inv) (hr : w.app.m_running = false)
    (h : StartApplication w = some w1) : w1.Inv := by
  unfold StartApplication at h
  cases hs : w.app.m_socket with
  | none => rw [hs] at h; simp at h
  | some s =>
    rw [hs] at h
    have hp : w.sim.pending = 0 := by rw [hw.1, hr]; simp
    exact (SendPacket_inv _ w1 h rfl hp).1

/-- The invariant is preserved when the simulator processes its next event. -/
theorem ProcessOneEvent_inv (w w1 : World) (hw : w.Inv) (h : ProcessOneEvent w = some w1) :
    w1.Inv := by
  unfold ProcessOneEvent at h
  cases he : earliest w.sim.events with
  | none =>
    rw [he] at h
    simp only [Option.some.injEq] at h
    rw [← h]; exact hw
  | some e =>
    rw [he] at h
    have hmem := earliest_mem _ _ he
    have hcount := countP_erase_of_mem (fun e : Event Unit => !e.cancelled) _ _ hmem
    by_cases hc : e.cancelled = true
    · simp only [hc, if_true, Option.some.injEq] at h
      subst h
      refine ⟨?_, ?_⟩
      · simp only [hc, Bool.not_true, Bool.false_eq_true, if_false, add_zero] at hcount
        have := hw.1
        unfold Simulator.pending at this ⊢
        simp only
        rw [hcount]; exact this
      · intro e1 he1 hc1
        exact hw.2 e1 (List.mem_of_mem_erase he1) hc1
    · have hc0 : e.cancelled = false := by simpa using hc
      simp only [hc0, Bool.false_eq_true, if_false] at h
      simp only [hc0, Bool.not_false, if_true] at hcount
      have h1 := hw.1
      unfold Simulator.pending at h1
      have hrun : w.app.m_running = true := by
        by_contra hr
        have hr1 : w.app.m_running = false := by simpa using hr
        rw [hr1] at h1
        simp only [Bool.false_eq_true, if_false] at h1
        omega
      simp only [hrun, if_true] at h1
      have hp : List.countP (fun e : Event Unit => !e.cancelled) (w.sim.events.erase e) = 0 := by
        omega
      exact (SendPacket_inv
        { w with sim := { w.sim with now := e.ts, events := w.sim.events.erase e } } w1 h hrun hp).1

/-- The invariant holds in every state reachable from a state where it holds. -/
theorem Reachable_inv (w0 w : World) (h0 : w0.Inv) (h : Reachable w0 w) : w.Inv := by
  induction h with
  | init => exact h0
  | start _ hr hs ih => exact StartApplication_inv _ _ ih hr hs
  | stop _ ih => exact StopApplication_inv _ ih
  | fire _ hf ih => exact ProcessOneEvent_inv _ _ ih hf

/-- A freshly constructed generator on an empty queue satisfies the invariant. -/
theorem fresh_inv (socket : Option Socket) (address : Address) (dataRate packetSize : Nat)
    (t0 : Time) (uid0 : Nat) : (World.fresh socket address dataRate packetSize t0 uid0).Inv := by
  refine ⟨by simp [World.fresh, Simulator.pending, TcpGeneratorApp.new], ?_⟩
  intro e he
  simp [World.fresh] at he

/-- Method `StopApplication` sends nothing. -/
theorem StopApplication_sends (w : World) : (StopApplication w).sends = w.sends := by
  unfold StopApplication World.sends
  cases hs : w.app.m_socket with
  | none => simp
  | some s => simp [sends_call_Close]

/-- Method `StopApplication` schedules nothing. -/
theorem StopApplication_uid (w : World) : (StopApplication w).sim.uid = w.sim.uid := by
  unfold StopApplication
  by_cases h : w.sim.IsRunning w.app.m_sendEvent = true
  · simp only [if_pos h]
    cases w.app.m_sendEvent <;> rfl
  · simp only [if_neg h]

/-- Method `StopApplication` does not move the clock. -/
theorem StopApplication_now (w : World) : (StopApplication w).sim.now = w.sim.now := by
  unfold StopApplication
  by_cases h : w.sim.IsRunning w.app.m_sendEvent = true
  · simp only [if_pos h]
    cases w.app.m_sendEvent <;> rfl
  · simp only [if_neg h]

/-- After `StopApplication` the send event is not running. -/
theorem IsRunning_StopApplication (w : World) :
    (StopApplication w).sim.IsRunning (StopApplication w).app.m_sendEvent = false := by
  by_cases hrun : w.sim.IsRunning w.app.m_sendEvent = true
  · have : (StopApplication w).sim = w.sim.Cancel w.app.m_sendEvent := by
      simp only [StopApplication, if_pos hrun]
    rw [this]
    exact IsRunning_Cancel _ _
  · have : (StopApplication w).sim = w.sim := by
      simp only [StopApplication, if_neg hrun]
    rw [this]
    simpa using hrun

/-- From a state that is not running and has nothing pending, further stops and event processing
send nothing and schedule nothing. -/
theorem afterStops_quiet : ∀ (steps : List AfterStop) (w : World),
    w.app.m_running = false → w.sim.pending = 0 →
    ∃ w1, w.afterStops steps = some w1 ∧ w1.sends = w.sends ∧ w1.sim.uid = w.sim.uid ∧
      w1.sim.pending = 0 ∧ w1.app.m_running = false
  | [], w, hr, hp => ⟨w, rfl, rfl, rfl, hp, hr⟩
  | .stop :: steps, w, hr, hp => by
    have hinv := Inv_of_pending_zero w hr hp
    obtain ⟨w1, h1, h2, h3, h4, h5⟩ :=
      afterStops_quiet steps (StopApplication w) rfl (StopApplication_pending w hinv)
    refine ⟨w1, ?_, ?_, ?_, h4, h5⟩
    · simpa [World.afterStops, World.afterStop] using h1
    · rw [h2, StopApplication_sends]
    · rw [h3, StopApplication_uid]
  | .fire :: steps, w, hr, hp => by
    cases he : earliest w.sim.events with
    | none =>
      obtain ⟨w1, h1, h2, h3, h4, h5⟩ := afterStops_quiet steps w hr hp
      refine ⟨w1, ?_, h2, h3, h4, h5⟩
      simpa [World.afterStops, World.afterStop, ProcessOneEvent, he] using h1
    | some e =>
      have hmem := earliest_mem _ _ he
      have hc : e.cancelled = true := (pending_eq_zero_iff _).mp hp e hmem
      have hp1 : ({ w with sim := { w.sim with now := e.ts, events := w.sim.events.erase e } } :
          World).sim.pending = 0 := by
        rw [pending_eq_zero_iff]
        intro e1 he1
        exact (pending_eq_zero_iff _).mp hp e1 (List.mem_of_mem_erase he1)
      obtain ⟨w1, h1, h2, h3, h4, h5⟩ := afterStops_quiet steps
        { w with sim := { w.sim with now := e.ts, events := w.sim.events.erase e } } hr hp1
      refine ⟨w1, ?_, h2, h3, h4, h5⟩
      simpa [World.afterStops, World.afterStop, ProcessOneEvent, he, hc] using h1

/-- Starting `World.sample` gives `World.sampleStarted`. -/
theorem sample_start : StartApplication World.sample = some World.sampleStarted := by
  rw [StartApplication_some World.sample { ops := [] } (4096 / 40000000) rfl
    (by rw [tNext_isSome _ _ (by decide)]; norm_num [World.sample, World.fresh, TcpGeneratorApp.new])]
  rfl

/-- The state `World.sampleStarted` is reachable from `World.sample`. -/
theorem sample_reachable : Reachable World.sample World.sampleStarted :=
  Reachable.start Reachable.init rfl sample_start

/-- Processing the next event of a paced generator performs one more send and queues the
following one. -/
theorem Paced_step (packetSize dataRate : Nat) (D t0 : Time) (b k : Nat) (w : World)
    (hD : tNext packetSize dataRate = some D) (hw : w.Paced packetSize dataRate D t0 b k) :
    ∃ w1, ProcessOneEvent w = some w1 ∧ w1.Paced packetSize dataRate D t0 b (k + 1) := by
  obtain ⟨hr, hS, hR, ⟨s, hs, hsends⟩, u, hev⟩ := hw
  have hD1 : tNext w.app.m_packetSize w.app.m_dataRate = some D := by rw [hS, hR]; exact hD
  refine ⟨{ app := { w.app with
                     m_socket := some (s.call (.Send w.app.m_packetSize))
                     m_sendEvent := some w.sim.uid }
            sim := { now := t0 + (k : ℚ) * D
                     uid := w.sim.uid + 1
                     events := [{ ts := t0 + (k : ℚ) * D + D, uid := w.sim.uid,
                                  cancelled := false, cb := () }] } }, ?_, ?_⟩
  · simp [ProcessOneEvent, hev, earliest_singleton, SendPacket, ScheduleTx, hs, hr, hD1,
      Simulator.Schedule]
  · refine ⟨hr, hS, hR, ⟨_, rfl, ?_⟩, w.sim.uid, ?_⟩
    · rw [sends_call_Send, hsends]; omega
    · simp only [List.cons.injEq, and_true]
      congr 1
      push_cast
      ring

/-- The queued send of a paced generator is due by `t0 + T` exactly when `k ≤ ⌊T / D⌋₊`. -/
theorem Paced_due (packetSize dataRate : Nat) (D t0 T : Time) (b k : Nat) (w : World)
    (hpos : 0 < D) (hT : 0 ≤ T) (hw : w.Paced packetSize dataRate D t0 b k) :
    ∃ e, earliest w.sim.events = some e ∧ (e.ts ≤ t0 + T ↔ k ≤ ⌊T / D⌋₊) := by
  obtain ⟨_, _, _, _, u, hev⟩ := hw
  refine ⟨_, by rw [hev]; rfl, ?_⟩
  show t0 + (k : ℚ) * D ≤ t0 + T ↔ k ≤ ⌊T / D⌋₊
  rw [Nat.le_floor_iff (div_nonneg hT hpos.le), le_div_iff₀ hpos]
  constructor <;> intro h <;> linarith

/-- Running a paced generator until `t0 + T` with enough fuel ends after `⌊T / D⌋₊ + 1` sends.
-/
theorem Paced_run (packetSize dataRate : Nat) (D t0 T : Time) (b : Nat)
    (hD : tNext packetSize dataRate = some D) (hpos : 0 < D) (hT : 0 ≤ T) :
    ∀ (n k fuel : Nat) (w : World), w.Paced packetSize dataRate D t0 b k →
      k + n = ⌊T / D⌋₊ + 1 → n ≤ fuel →
      ∃ w1, runUntil (t0 + T) fuel w = some w1 ∧
        w1.Paced packetSize dataRate D t0 b (⌊T / D⌋₊ + 1)
  | 0, k, fuel, w, hw, hk, _ => by
    obtain ⟨e, he, hiff⟩ := Paced_due packetSize dataRate D t0 T b k w hpos hT hw
    have hnot : ¬ e.ts ≤ t0 + T := by rw [hiff]; omega
    have hk1 : k = ⌊T / D⌋₊ + 1 := by omega
    refine ⟨w, ?_, hk1 ▸ hw⟩
    cases fuel <;> simp [runUntil, he, hnot]
  | n + 1, k, 0, w, _, _, hf => by omega
  | n + 1, k, fuel + 1, w, hw, hk, hf => by
    obtain ⟨e, he, hiff⟩ := Paced_due packetSize dataRate D t0 T b k w hpos hT hw
    have hdue : e.ts ≤ t0 + T := by rw [hiff]; omega
    obtain ⟨w1, hstep, hw1⟩ := Paced_step packetSize dataRate D t0 b k w hD hw
    obtain ⟨w2, hrun, hw2⟩ := Paced_run packetSize dataRate D t0 T b hD hpos hT n (k + 1) fuel w1
      hw1 (by omega) (by omega)
    refine ⟨w2, ?_, hw2⟩
    simp [runUntil, he, hdue, hstep, hrun]

/-! ## Auxiliary lemmas: telemetry -/

/-- Effect of a sampler tick when exactly one sampler event is queued. -/
theorem tick_single (w : Telemetry) (t : Time) (u last : Nat)
    (h : w.sim.events = [{ ts := t, uid := u, cancelled := false, cb := last }]) :
    w.tick = some
      { w with
        wifiTxThroughputSet := w.wifiTxThroughputSet ++ [(t, throughput w.g_wifiTxBytes last)]
        sim := { now := t
                 uid := w.sim.uid + 1
                 events := [{ ts := t + 100 / 1000, uid := w.sim.uid, cancelled := false,
                              cb := w.g_wifiTxBytes }] } } := by
  simp [Telemetry.tick, h, earliest_singleton, CalculateWifiThroughput, Simulator.Schedule,
    Gnuplot2dDataset.Add]

/-- The values recorded by successive ticks are the throughputs of each reading against the
previous one. -/
theorem sampleTicks_values : ∀ (cs : List Nat) (w : Telemetry) (t : Time) (u last : Nat),
    w.sim.events = [{ ts := t, uid := u, cancelled := false, cb := last }] →
    ∃ w1, sampleTicks cs w = some w1 ∧
      values w1.wifiTxThroughputSet =
        values w.wifiTxThroughputSet ++ List.zipWith throughput cs (last :: cs)
  | [], w, _, _, _, _ => ⟨w, rfl, by simp⟩
  | c :: cs, w, t, u, last, h => by
    have ht := tick_single { w with g_wifiTxBytes := c } t u last h
    obtain ⟨w1, h1, h2⟩ := sampleTicks_values cs
      { w with
        g_wifiTxBytes := c
        wifiTxThroughputSet := w.wifiTxThroughputSet ++ [(t, throughput c last)]
        sim := { now := t
                 uid := w.sim.uid + 1
                 events := [{ ts := t + 100 / 1000, uid := w.sim.uid, cancelled := false,
                              cb := c }] } }
      (t + 100 / 1000) w.sim.uid c rfl
    refine ⟨w1, ?_, ?_⟩
    · simp only [sampleTicks, ht, Option.bind_some]
      exact h1
    · rw [h2]
      simp [values]

/-- Without wrap-around the recorded value is the counter difference times 8 over 10^5. -/
theorem throughput_of_le (c p : Nat) (hc : c < 2 ^ 64) (hp : p ≤ c) :
    throughput c p = ((c : ℚ) - (p : ℚ)) * 8 / 10 ^ 5 := by
  unfold throughput
  have h0 : (0 : ℤ) ≤ (c : ℤ) - (p : ℤ) := by omega
  have h1 : (c : ℤ) - (p : ℤ) < 2 ^ 64 := by
    have : (c : ℤ) < 2 ^ 64 := by exact_mod_cast hc
    omega
  rw [Int.emod_eq_of_lt h0 h1]
  push_cast
  norm_num

/-- Appending an upper bound keeps a list non-decreasing. -/
theorem pairwise_le_concat (l : List ℚ) (x : ℚ) (hl : l.Pairwise (· ≤ ·))
    (hx : ∀ y ∈ l, y ≤ x) : (l ++ [x]).Pairwise (· ≤ ·) := by
  rw [List.pairwise_append]
  refine ⟨hl, List.pairwise_singleton _ _, ?_⟩
  intro a ha b hb
  rw [List.mem_singleton] at hb
  subst hb
  exact hx a ha

/-- The telemetry invariant is preserved by every input. -/
theorem step_inv (w w1 : Telemetry) (i : Input) (hw : w.TInv) (h : w.step i = some w1) :
    w1.TInv := by
  obtain ⟨t, u, last, hev, hnow, ht, hform, htx, htxs, hcw, hcws⟩ := hw
  cases i with
  | tick =>
    have hs := tick_single w t u last hev
    simp only [Telemetry.step] at h
    rw [hs] at h
    simp only [Option.some.injEq] at h
    subst h
    refine ⟨t + 100 / 1000, w.sim.uid, w.g_wifiTxBytes, rfl, ?_, ?_, ?_, ?_, ?_, ?_, ?_⟩
    · show t ≤ t + 100 / 1000
      linarith
    · simp only [List.length_append, List.length_singleton]
      rw [ht]
      push_cast
      ring
    · simp only [timestamps, List.map_append, List.length_append, List.length_singleton,
        List.range_succ, List.map_cons, List.map_nil]
      rw [← ht]
      simp only [timestamps] at hform
      rw [hform]
    · intro x hx
      simp only [timestamps, List.map_append, List.map_cons, List.map_nil, List.mem_append,
        List.mem_singleton] at hx
      rcases hx with hx | hx
      · exact le_trans (htx x hx) hnow
      · rw [hx]
    · simp only [timestamps, List.map_append, List.map_cons, List.map_nil]
      exact pairwise_le_concat _ _ htxs (fun y hy => le_trans (htx y hy) hnow)
    · intro x hx
      exact le_trans (hcw x hx) hnow
    · exact hcws
  | other t1 =>
    simp only [Telemetry.step] at h
    split at h
    · rename_i hcond
      simp only [Option.some.injEq] at h
      subst h
      have ht1 : t1 ≤ t := hcond.2 _ (by rw [hev]; rfl)
      refine ⟨t, u, last, hev, ht1, ht, hform, ?_, htxs, ?_, hcws⟩
      · intro x hx
        exact le_trans (htx x hx) hcond.1
      · intro x hx
        exact le_trans (hcw x hx) hcond.1
    · cases h
  | tx size =>
    simp only [Telemetry.step, Option.some.injEq] at h
    subst h
    exact ⟨t, u, last, hev, hnow, ht, hform, htx, htxs, hcw, hcws⟩
  | cwnd oldCwnd newCwnd =>
    simp only [Telemetry.step, Option.some.injEq] at h
    subst h
    refine ⟨t, u, last, hev, hnow, ht, hform, htx, htxs, ?_, ?_⟩
    · intro x hx
      simp only [CwndChange, Gnuplot2dDataset.Add, timestamps, List.map_append, List.map_cons,
        List.map_nil, List.mem_append, List.mem_singleton] at hx
      rcases hx with hx | hx
      · exact hcw x hx
      · rw [hx]
        exact le_refl _
    · simp only [CwndChange, Gnuplot2dDataset.Add, timestamps, List.map_append, List.map_cons,
        List.map_nil]
      exact pairwise_le_concat _ _ hcws hcw

/-- The telemetry invariant is preserved by every run. -/
theorem run_inv : ∀ (inputs : List Input) (w w1 : Telemetry), w.TInv →
    Telemetry.run inputs w = some w1 → w1.TInv
  | [], w, w1, hw, h => by
    simp only [Telemetry.run, Option.some.injEq] at h
    rw [← h]; exact hw
  | i :: is, w, w1, hw, h => by
    simp only [Telemetry.run] at h
    cases hs : w.step i with
    | none => rw [hs] at h; simp at h
    | some w2 =>
      rw [hs] at h
      exact run_inv is w2 w1 (step_inv w w2 i hw hs) h

/-- The telemetry state set up by `main` satisfies the invariant. -/
theorem main_inv : Telemetry.main.TInv := by
  refine ⟨0, 0, 0, ?_, ?_, ?_, ?_, ?_, ?_, ?_, ?_⟩ <;>
    simp [Telemetry.main, Simulator.Schedule, timestamps]

/-- Running `sampleInputs` from the state set up by `main` gives `sampleTelemetry`. -/
theorem sample_run : Telemetry.run sampleInputs Telemetry.main = some sampleTelemetry := by
  norm_num [sampleInputs, sampleTelemetry, Telemetry.run, Telemetry.step, Telemetry.main,
    Telemetry.tick, earliest_singleton, Simulator.Schedule, CalculateWifiThroughput,
    CalculateTxBytes, CwndChange, Gnuplot2dDataset.Add, throughput]

/-! ## C1: inter-send delay -/

/-- C1, evaluated at packet size `2^29` and 40 Mbps: the product `m_packetSize * 8` wraps
to 0 in `uint32_t`, so the delay that `ScheduleTx` hands to the scheduler is 0 s although
`S * 8 / R` is not 0, and the next send is queued at the current time (2 s here). -/
theorem C1_delay_wraps_for_large_packet :
    tNext 536870912 40000000 = some 0 ∧
    (536870912 : ℚ) * 8 / 40000000 ≠ 0 ∧
    (ScheduleTx { app := { World.sampleStarted.app with m_packetSize := 536870912 }
                  sim := { now := 2, uid := 1, events := [] } }).map (fun w => w.sim.events) =
      some [{ ts := 2, uid := 1, cancelled := false, cb := () }] := by
  have h : tNext 536870912 40000000 = some 0 := by
    rw [tNext_isSome _ _ (by decide)]
    norm_num
  refine ⟨h, by norm_num, ?_⟩
  simp [ScheduleTx, World.sampleStarted, h, Simulator.Schedule]

/-! ## C2: throughput samples -/

/-- C2: for every sequence of `uint64_t` counter readings seen by successive ticks of
`CalculateWifiThroughput`, started by `main` with baseline 0, every tick records one
sample, and wherever the counter did not decrease between tick `k` and tick `k + 1` the
sample of tick `k + 1` is `(C (k + 1) - C k) * 8 / 10^5`, computed against the reading of
the previous tick; where the counter grew by exactly 125000 the sample is 10. -/
theorem C2_sample_is_delta_since_previous_tick (readings : List Nat)
    (hbound : ∀ c ∈ readings, c < 2 ^ 64) :
    ∃ w, sampleTicks readings Telemetry.main = some w ∧
      (values w.wifiTxThroughputSet).length = readings.length ∧
      (∀ k, k + 1 < readings.length → readings.getD k 0 ≤ readings.getD (k + 1) 0 →
        (values w.wifiTxThroughputSet)[k + 1]? =
          some (((readings.getD (k + 1) 0 : ℚ) - (readings.getD k 0 : ℚ)) * 8 / 10 ^ 5)) ∧
      (∀ k, k + 1 < readings.length → readings.getD (k + 1) 0 = readings.getD k 0 + 125000 →
        (values w.wifiTxThroughputSet)[k + 1]? = some 10) := by
  obtain ⟨w, h1, h2⟩ := sampleTicks_values readings Telemetry.main 0 0 0
    (by simp [Telemetry.main, Simulator.Schedule])
  have hv : values w.wifiTxThroughputSet = List.zipWith throughput readings (0 :: readings) := by
    rw [h2]; simp [values, Telemetry.main]
  have key : ∀ k, k + 1 < readings.length → readings.getD k 0 ≤ readings.getD (k + 1) 0 →
      (values w.wifiTxThroughputSet)[k + 1]? =
        some (((readings.getD (k + 1) 0 : ℚ) - (readings.getD k 0 : ℚ)) * 8 / 10 ^ 5) := by
    intro k hk hle
    have hk0 : k < readings.length := by omega
    rw [hv, List.getElem?_zipWith, List.getElem?_cons_succ, List.getElem?_eq_getElem hk,
      List.getElem?_eq_getElem hk0]
    simp only [List.getD_eq_getElem _ 0 hk, List.getD_eq_getElem _ 0 hk0] at hle ⊢
    rw [throughput_of_le _ _ (hbound _ (List.getElem_mem _)) hle]
  refine ⟨w, h1, ?_, key, ?_⟩
  · rw [hv]; simp
  · intro k hk hstep
    rw [key k hk (by omega), hstep]
    push_cast
    norm_num

/-- C2 at the readings 5, 125005, 250005: the samples of the second and third tick are
both 10. -/
theorem C2_witness :
    ∃ w, sampleTicks sampleReadings Telemetry.main = some w ∧
      (values w.wifiTxThroughputSet)[1]? = some 10 ∧
      (values w.wifiTxThroughputSet)[2]? = some 10 := by
  obtain ⟨w, h1, _, _, h4⟩ := C2_sample_is_delta_since_previous_tick sampleReadings (by decide)
  exact ⟨w, h1, h4 0 (by decide) (by decide), h4 1 (by decide) (by decide)⟩

/-! ## C3: number of sends of a running generator -/

/-- C3: a generator with a socket and inter-send delay `D > 0` that is started at time `t0`
on an empty queue and is never stopped: running the simulator over `[t0, t0 + T]`, `T ≥ 0`,
terminates with any fuel of at least `⌊T / D⌋`, the generator has then made exactly
`⌊T / D⌋ + 1` sends (on top of those the socket had seen before), and its next send is
queued after `t0 + T`. -/
theorem C3_send_count (s : Socket) (address : Address) (dataRate packetSize : Nat) (t0 : Time)
    (uid0 : Nat) (D T : ℚ) (hD : tNext packetSize dataRate = some D) (hpos : 0 < D)
    (hT : 0 ≤ T) (fuel : Nat) (hfuel : ⌊T / D⌋₊ ≤ fuel) :
    ∃ w0 w, StartApplication (World.fresh (some s) address dataRate packetSize t0 uid0) = some w0 ∧
      runUntil (t0 + T) fuel w0 = some w ∧
      w.sends = s.sends + (⌊T / D⌋₊ + 1) ∧
      (∀ e ∈ w.sim.events, t0 + T < e.ts) := by
  have hstart := StartApplication_some (World.fresh (some s) address dataRate packetSize t0 uid0)
    s D rfl hD
  have hpaced : World.Paced packetSize dataRate D t0 s.sends 1
      { app := { (World.fresh (some s) address dataRate packetSize t0 uid0).app with
                 m_socket := some ((((s.call .Bind).call (.Connect address))).call
                              (.Send packetSize))
                 m_sendEvent := some uid0
                 m_running := true }
        sim := { now := t0
                 uid := uid0 + 1
                 events := [{ ts := t0 + D, uid := uid0, cancelled := false, cb := () }] } } := by
    refine ⟨rfl, rfl, rfl, ⟨_, rfl, ?_⟩, uid0, ?_⟩
    · rw [sends_call_Send, sends_call_Connect, sends_call_Bind]
    · simp
  obtain ⟨w, hrun, hw⟩ := Paced_run packetSize dataRate D t0 T s.sends hD hpos hT
    ⌊T / D⌋₊ 1 fuel _ hpaced (by omega) hfuel
  refine ⟨_, w, hstart, ?_, ?_, ?_⟩
  · exact hrun
  · obtain ⟨_, _, _, ⟨s1, hs1, hsends⟩, _⟩ := hw
    simp [World.sends, hs1, hsends]
  · obtain ⟨e, he, hiff⟩ := Paced_due packetSize dataRate D t0 T s.sends _ w hpos hT hw
    obtain ⟨_, _, _, _, u, hev⟩ := hw
    intro e1 he1
    rw [hev] at he he1
    rw [List.mem_singleton] at he1
    have : e = e1 := by
      rw [earliest_singleton] at he
      rw [he1]; exact (Option.some.inj he).symm
    subst this
    have hnot : ¬ e.ts ≤ t0 + T := by rw [hiff]; omega
    exact not_le.mp hnot

/-- C3 at `T = 1` s and `D = 0.1` s (500-byte packets at 40 kbit/s, started at 2 s): the
run over `[2, 3]` ends after exactly 11 sends. -/
theorem C3_witness :
    ∃ w0 w, StartApplication (World.fresh (some { ops := [] }) 13 40000 500 2 0) = some w0 ∧
      runUntil (2 + 1) 10 w0 = some w ∧ w.sends = 11 := by
  have hfloor : ⌊(1 : ℚ) / (1 / 10)⌋₊ = 10 := by
    rw [show (1 : ℚ) / (1 / 10) = ((10 : ℕ) : ℚ) by norm_num, Nat.floor_natCast]
  obtain ⟨w0, w, h0, h1, h2, _⟩ := C3_send_count { ops := [] } 13 40000 500 2 0 (1 / 10) 1
    (by rw [tNext_isSome _ _ (by decide)]; norm_num) (by norm_num) (by norm_num) 10
    (by rw [hfloor])
  refine ⟨w0, w, h0, h1, ?_⟩
  rw [h2, hfloor]
  rfl

/-! ## C4: start followed immediately by stop -/

/-- C4: for every freshly constructed generator with a socket and a positive bit rate,
`StartApplication` followed by `StopApplication` with no event processed in between
succeeds, leaves exactly one more send on the socket, no pending event, the clock where it
was, and the running flag clear. -/
theorem C4_start_then_stop (s : Socket) (address : Address) (dataRate packetSize : Nat)
    (t0 : Time) (uid0 : Nat) (hR : 0 < dataRate) :
    ∃ w, StartApplication (World.fresh (some s) address dataRate packetSize t0 uid0) = some w ∧
      (StopApplication w).sends = s.sends + 1 ∧
      (StopApplication w).sim.pending = 0 ∧
      (StopApplication w).sim.now = t0 ∧
      (StopApplication w).app.m_running = false := by
  have hd := tNext_isSome packetSize dataRate hR
  have hstart := StartApplication_some (World.fresh (some s) address dataRate packetSize t0 uid0)
    s _ rfl hd
  refine ⟨_, hstart, ?_, ?_, ?_, rfl⟩
  · rw [StopApplication_sends]
    simp [World.sends, sends_call_Send, sends_call_Connect, sends_call_Bind]
  · exact StopApplication_pending _
      (StartApplication_inv _ _ (fresh_inv _ _ _ _ _ _) rfl hstart)
  · rw [StopApplication_now]
    rfl

/-- C4 at the generator of `main` on an untouched socket. -/
theorem C4_witness :
    ∃ w, StartApplication (World.fresh (some { ops := [] }) 13 40000000 512 2 0) = some w ∧
      (StopApplication w).sends = ({ ops := [] } : Socket).sends + 1 ∧
      (StopApplication w).sim.pending = 0 ∧
      (StopApplication w).sim.now = 2 ∧
      (StopApplication w).app.m_running = false :=
  C4_start_then_stop { ops := [] } 13 40000000 512 2 0 (by decide)

/-! ## C5: no send after stop -/

/-- C5: in every state reachable from a freshly constructed generator (starts invoked only
while the running flag is clear), once `StopApplication` has run, every further sequence
of stops and of events processed by the simulator succeeds, performs no send, schedules no
event (the uid counter of the simulator does not move), and leaves nothing pending and the
running flag clear; and `ScheduleTx` schedules nothing whenever the running flag is
clear. -/
theorem C5_no_send_after_stop (socket : Option Socket) (address : Address)
    (dataRate packetSize : Nat) (t0 : Time) (uid0 : Nat) (w : World)
    (h : Reachable (World.fresh socket address dataRate packetSize t0 uid0) w)
    (steps : List AfterStop) :
    (∃ w1, (StopApplication w).afterStops steps = some w1 ∧
      w1.sends = (StopApplication w).sends ∧
      w1.sim.uid = (StopApplication w).sim.uid ∧
      w1.sim.pending = 0 ∧
      w1.app.m_running = false) ∧
    (StopApplication w).sim.pending = 0 ∧
    (∀ v : World, v.app.m_running = false → ScheduleTx v = some v) := by
  have hinv := Reachable_inv _ _ (fresh_inv socket address dataRate packetSize t0 uid0) h
  refine ⟨afterStops_quiet steps (StopApplication w) rfl (StopApplication_pending w hinv),
    StopApplication_pending w hinv, ?_⟩
  intro v hv
  simp [ScheduleTx, hv]

/-- C5 at the started generator of `main`: after the stop, processing the (cancelled)
event, stopping again and processing once more sends nothing and schedules nothing. -/
theorem C5_witness :
    (∃ w1, (StopApplication World.sampleStarted).afterStops [.fire, .stop, .fire] = some w1 ∧
      w1.sends = (StopApplication World.sampleStarted).sends ∧
      w1.sim.uid = (StopApplication World.sampleStarted).sim.uid ∧
      w1.sim.pending = 0 ∧
      w1.app.m_running = false) ∧
    (StopApplication World.sampleStarted).sim.pending = 0 ∧
    (∀ v : World, v.app.m_running = false → ScheduleTx v = some v) :=
  C5_no_send_after_stop (some { ops := [] }) 13 40000000 512 2 0 World.sampleStarted
    sample_reachable [.fire, .stop, .fire]

/-! ## C6: stop on a generator that is not running -/

/-- C6 as amended: `StopApplication` on a generator whose running flag is clear and whose
send event is not pending (Idle, or already Stopped) always returns, cancels nothing and
leaves the simulator, the running flag and the event handle unchanged; its one effect is a
further `Close` call on the socket when the socket is not null.  The resulting state again
has the running flag clear and no pending send event. -/
theorem C6_stop_when_not_running (w : World) (hr : w.app.m_running = false)
    (hev : w.sim.IsRunning w.app.m_sendEvent = false) :
    StopApplication w =
      { w with app := { w.app with
                        m_socket := w.app.m_socket.map (fun s => s.call .Close) } } ∧
    (StopApplication w).app.m_running = false ∧
    (StopApplication w).sim.IsRunning (StopApplication w).app.m_sendEvent = false := by
  refine ⟨?_, rfl, IsRunning_StopApplication w⟩
  unfold StopApplication
  rw [hev]
  cases hs : w.app.m_socket <;> cases w with
  | mk app sim =>
    cases app
    simp_all

/-- C6 as amended, at the Idle generator of `main`. -/
theorem C6_witness :
    StopApplication World.sample =
      { World.sample with
        app := { World.sample.app with
                 m_socket := World.sample.app.m_socket.map (fun s => s.call .Close) } } ∧
    (StopApplication World.sample).app.m_running = false ∧
    (StopApplication World.sample).sim.IsRunning (StopApplication World.sample).app.m_sendEvent =
      false :=
  C6_stop_when_not_running World.sample rfl rfl

/-- C6 fails as stated: on the Idle generator of `main` (running flag clear, null event
handle, untouched socket) `StopApplication` calls `Close` on the socket, and a second
`StopApplication` calls `Close` a second time. -/
theorem C6_counterexample :
    World.sample.app.m_running = false ∧
    World.sample.app.m_sendEvent = none ∧
    World.sample.app.m_socket = some { ops := [] } ∧
    (StopApplication World.sample).app.m_socket = some { ops := [.Close] } ∧
    (StopApplication (StopApplication World.sample)).app.m_socket =
      some { ops := [.Close, .Close] } :=
  ⟨rfl, rfl, rfl, rfl, rfl⟩

/-! ## C7: start after stop -/

/-- C7 as amended: `StartApplication` has no state guard.  Run after `StopApplication` on
any generator with a socket and a positive bit rate it succeeds, sets the running flag,
calls `Bind`, `Connect` and `Send` on the (closed) socket, so one more unit is sent, and
schedules one more event. -/
theorem C7_start_after_stop (w : World) (s : Socket) (hs : w.app.m_socket = some s)
    (hR : 0 < w.app.m_dataRate) :
    ∃ w1, StartApplication (StopApplication w) = some w1 ∧
      w1.app.m_running = true ∧
      w1.app.m_socket = some ((((s.call .Close).call .Bind).call (.Connect w.app.m_peer)).call
        (.Send w.app.m_packetSize)) ∧
      w1.sends = w.sends + 1 ∧
      w1.sim.pending = (StopApplication w).sim.pending + 1 ∧
      w1.sim.uid = w.sim.uid + 1 := by
  have hs1 : (StopApplication w).app.m_socket = some (s.call .Close) := by
    simp [StopApplication, hs]
  have hd : tNext (StopApplication w).app.m_packetSize (StopApplication w).app.m_dataRate =
      some _ := tNext_isSome w.app.m_packetSize w.app.m_dataRate hR
  have hstart := StartApplication_some (StopApplication w) (s.call .Close) _ hs1 hd
  refine ⟨_, hstart, rfl, rfl, ?_, ?_, ?_⟩
  · simp [World.sends, hs, sends_call_Send, sends_call_Connect, sends_call_Bind,
      sends_call_Close]
  · simp [Simulator.pending]
  · simp [StopApplication_uid]

/-- C7 as amended, at the started generator of `main`. -/
theorem C7_witness :
    ∃ w1, StartApplication (StopApplication World.sampleStarted) = some w1 ∧
      w1.app.m_running = true ∧
      w1.app.m_socket = some ((((({ ops := [.Bind, .Connect 13, .Send 512] } : Socket).call
        .Close).call .Bind).call (.Connect World.sampleStarted.app.m_peer)).call
        (.Send World.sampleStarted.app.m_packetSize)) ∧
      w1.sends = World.sampleStarted.sends + 1 ∧
      w1.sim.pending = (StopApplication World.sampleStarted).sim.pending + 1 ∧
      w1.sim.uid = World.sampleStarted.sim.uid + 1 :=
  C7_start_after_stop World.sampleStarted { ops := [.Bind, .Connect 13, .Send 512] } rfl
    (by decide)

/-- C7 fails as stated: on the generator of `main`, `StartApplication` after
`StopApplication` succeeds, sets the running flag, sends one unit and leaves one event
pending. -/
theorem C7_counterexample :
    ∃ w1, StartApplication (StopApplication World.sample) = some w1 ∧
      w1.app.m_running = true ∧ w1.sends = 1 ∧ w1.sim.pending = 1 := by
  have hd : tNext (StopApplication World.sample).app.m_packetSize
      (StopApplication World.sample).app.m_dataRate = some _ :=
    tNext_isSome 512 40000000 (by decide)
  refine ⟨_, StartApplication_some (StopApplication World.sample) { ops := [.Close] } _ rfl hd,
    rfl, ?_, ?_⟩
  · simp [World.sends, Socket.sends, Socket.call]
  · simp [Simulator.pending, StopApplication, World.sample, World.fresh, Simulator.IsRunning,
      TcpGeneratorApp.new]

/-! ## C8: timestamps of the recorded samples -/

/-- C8: after every run of the simulator from the state set up by `main`, the timestamps
of the throughput data set and of the congestion-window data set are non-decreasing in
insertion order, the `k`-th throughput sample (counting from 0) is stamped `k * 100 ms`,
and the next sampler tick is queued. -/
theorem C8_timestamps_monotone (inputs : List Input) (w : Telemetry)
    (h : Telemetry.run inputs Telemetry.main = some w) :
    (timestamps w.wifiTxThroughputSet).Pairwise (· ≤ ·) ∧
    (timestamps w.cwndDataSet).Pairwise (· ≤ ·) ∧
    (∀ k, k < w.wifiTxThroughputSet.length →
      (timestamps w.wifiTxThroughputSet)[k]? = some ((k : ℚ) * (100 / 1000))) ∧
    (w.step .tick).isSome = true := by
  obtain ⟨t, u, last, hev, hnow, ht, hform, htx, htxs, hcw, hcws⟩ :=
    run_inv inputs _ w main_inv h
  refine ⟨htxs, hcws, ?_, ?_⟩
  · intro k hk
    rw [hform, List.getElem?_map, List.getElem?_range hk]
    rfl
  · simp [Telemetry.step, tick_single w t u last hev]

/-- C8 at the run `sampleInputs`. -/
theorem C8_witness :
    (timestamps sampleTelemetry.wifiTxThroughputSet).Pairwise (· ≤ ·) ∧
    (timestamps sampleTelemetry.cwndDataSet).Pairwise (· ≤ ·) ∧
    (∀ k, k < sampleTelemetry.wifiTxThroughputSet.length →
      (timestamps sampleTelemetry.wifiTxThroughputSet)[k]? = some ((k : ℚ) * (100 / 1000))) ∧
    (sampleTelemetry.step .tick).isSome = true :=
  C8_timestamps_monotone sampleInputs sampleTelemetry sample_run

/-! ## C9: construction without validation -/

/-- C9 as amended: neither the constructor nor `Setup` validates its arguments.  For every
bit rate and packet size, zero included, both return a generator that stores the two
values unchanged; the delay of `ScheduleTx` is defined exactly when the stored bit rate is
positive. -/
theorem C9_no_validation (socket : Option Socket) (address : Address)
    (dataRate packetSize : Nat) :
    (TcpGeneratorApp.new socket address dataRate packetSize).m_dataRate = dataRate ∧
    (TcpGeneratorApp.new socket address dataRate packetSize).m_packetSize = packetSize ∧
    (∀ app : TcpGeneratorApp,
      (app.Setup socket address dataRate packetSize).m_dataRate = dataRate ∧
      (app.Setup socket address dataRate packetSize).m_packetSize = packetSize) ∧
    ((tNext packetSize dataRate).isSome = true ↔ 0 < dataRate) := by
  refine ⟨rfl, rfl, fun _ => ⟨rfl, rfl⟩, ?_⟩
  unfold tNext
  by_cases h : dataRate = 0
  · simp [h]
  · simp [h]; omega

/-- C9 fails as stated: the constructor and `Setup` both accept bit rate 0 and packet
size 0 and return a generator holding them, for which the delay is not defined. -/
theorem C9_counterexample :
    (TcpGeneratorApp.new (some { ops := [] }) 13 0 0).m_dataRate = 0 ∧
    (TcpGeneratorApp.new (some { ops := [] }) 13 0 0).m_packetSize = 0 ∧
    (World.sample.app.Setup (some { ops := [] }) 13 0 0).m_dataRate = 0 ∧
    (World.sample.app.Setup (some { ops := [] }) 13 0 0).m_packetSize = 0 ∧
    tNext 0 0 = none :=
  ⟨rfl, rfl, rfl, rfl, rfl⟩

/-! ## C10: at most one pending send event -/

/-- C10: in every state reachable from a freshly constructed generator by
`StartApplication` (invoked only while the running flag is clear), `StopApplication` and
the simulator processing its next event, at most one send event is pending: exactly one
while the running flag is set and none while it is clear.  When the simulator takes a
pending send event from the queue to invoke `SendPacket`, nothing else is pending, so
`ScheduleTx` never schedules while another send event is pending. -/
theorem C10_single_outstanding_event (socket : Option Socket) (address : Address)
    (dataRate packetSize : Nat) (t0 : Time) (uid0 : Nat) (w : World)
    (h : Reachable (World.fresh socket address dataRate packetSize t0 uid0) w) :
    w.sim.pending ≤ 1 ∧
    (w.app.m_running = true → w.sim.pending = 1) ∧
    (w.app.m_running = false → w.sim.pending = 0) ∧
    (∀ e, earliest w.sim.events = some e → e.cancelled = false →
      ({ w.sim with events := w.sim.events.erase e } : Simulator Unit).pending = 0) := by
  have hinv := Reachable_inv _ _ (fresh_inv socket address dataRate packetSize t0 uid0) h
  have h1 := hinv.1
  refine ⟨?_, ?_, ?_, ?_⟩
  · rw [h1]; split <;> omega
  · intro hr; rw [h1, hr]; rfl
  · intro hr; rw [h1, hr]; rfl
  · intro e he hc
    have hcount := countP_erase_of_mem (fun e : Event Unit => !e.cancelled) _ _
      (earliest_mem _ _ he)
    simp only [hc, Bool.not_false, if_true] at hcount
    unfold Simulator.pending at h1 ⊢
    simp only
    have : (if w.app.m_running = true then 1 else 0) ≤ 1 := by split <;> omega
    omega

/-- C10 at the started generator of `main`. -/
theorem C10_witness :
    World.sampleStarted.sim.pending ≤ 1 ∧
    (World.sampleStarted.app.m_running = true → World.sampleStarted.sim.pending = 1) ∧
    (World.sampleStarted.app.m_running = false → World.sampleStarted.sim.pending = 0) ∧
    (∀ e, earliest World.sampleStarted.sim.events = some e → e.cancelled = false →
      ({ World.sampleStarted.sim with events := World.sampleStarted.sim.events.erase e } :
        Simulator Unit).pending = 0) :=
  C10_single_outstanding_event (some { ops := [] }) 13 40000000 512 2 0 World.sampleStarted
    sample_reachable

end NkbTestCase
